import Mathlib

/-!
Shallow embedding of the configguard configuration validator
(src/validation.rs, src/schema.rs, src/config.rs, src/error.rs).

Rust strings are modelled by Lean `String`; `str::len()` (UTF-8 byte
count) is `String.utf8ByteSize` and character count is `String.length`.
`f64` values are modelled exactly: finite values as rationals plus NaN
and the two infinities (the values occurring in the claims are all
exactly representable, so no rounding is lost).  serde_yaml mappings
are association lists in insertion order; the schema `keys` HashMap is
an association list with first-match lookup.  `Regex::new` is an
explicit compilation oracle passed to every function that the source
threads a regex through.
-/

namespace ConfigGuard

/-- Model of an `f64`: a finite value (exact rational), NaN, or a signed
infinity. -/
inductive F64 where
  | finite (q : ℚ)
  | nan
  | inf (positive : Bool)
deriving DecidableEq

/-- Rust `f64::is_nan`. -/
def F64.is_nan : F64 → Bool
  | .nan => true
  | _ => false

/-- Rust `f64::is_infinite`. -/
def F64.is_infinite : F64 → Bool
  | .inf _ => true
  | _ => false

/-- Rust `f64::is_sign_positive` (only ever used on an infinity in the
source). -/
def F64.is_sign_positive : F64 → Bool
  | .inf b => b
  | .finite q => decide (0 ≤ q)
  | .nan => true

/-- Rust `<` on `f64` (any comparison with NaN is false). -/
def F64.flt : F64 → F64 → Bool
  | .nan, _ => false
  | _, .nan => false
  | .finite a, .finite b => decide (a < b)
  | .finite _, .inf s => s
  | .inf s, .finite _ => !s
  | .inf s₁, .inf s₂ => !s₁ && s₂

/-- Rust `<=` on `f64` (any comparison with NaN is false). -/
def F64.fle : F64 → F64 → Bool
  | .nan, _ => false
  | _, .nan => false
  | .finite a, .finite b => decide (a ≤ b)
  | .finite _, .inf s => s
  | .inf s, .finite _ => !s
  | .inf s₁, .inf s₂ => !s₁ || s₂

/-- Rust `-` on `f64`. -/
def F64.fsub : F64 → F64 → F64
  | .nan, _ => .nan
  | _, .nan => .nan
  | .finite a, .finite b => .finite (a - b)
  | .finite _, .inf s => .inf (!s)
  | .inf s, .finite _ => .inf s
  | .inf s₁, .inf s₂ => if s₁ = s₂ then .nan else .inf s₁

/-- Rust `f64::abs`. -/
def F64.fabs : F64 → F64
  | .nan => .nan
  | .inf _ => .inf true
  | .finite q => .finite |q|

/-- `f64::EPSILON` = 2⁻⁵². -/
def f64_EPSILON : F64 := .finite (1 / 2 ^ 52)

/-- Display of an `f64` with `format!` (integral floats print without the
fraction; the non-dyadic fallback is an approximation of shortest-digit
printing, which no claim inspects). -/
def F64.display : F64 → String
  | .finite q => if q.den = 1 then toString q.num else toString q.num ++ "/" ++ toString q.den
  | .nan => "NaN"
  | .inf true => "inf"
  | .inf false => "-inf"

/-- Model of `serde_yaml::Number`: an integer representation (the i64/u64
variants, always in machine range when produced by the parser) or an
`f64`. -/
inductive Num where
  | int (i : Int)
  | float (x : F64)
deriving DecidableEq

/-- `Number::is_i64`. -/
def Num.is_i64 : Num → Bool
  | .int i => decide (-(2 : Int) ^ 63 ≤ i ∧ i < 2 ^ 63)
  | .float _ => false

/-- `Number::is_u64`. -/
def Num.is_u64 : Num → Bool
  | .int i => decide (0 ≤ i ∧ i < (2 : Int) ^ 64)
  | .float _ => false

/-- `Number::is_f64` (true exactly for the float variant). -/
def Num.is_f64 : Num → Bool
  | .int _ => false
  | .float _ => true

/-- `Number::as_f64` (always succeeds; integers convert exactly). -/
def Num.as_f64 : Num → F64
  | .int i => .finite (i : ℚ)
  | .float x => x

/-- `Number` rendering used in `format!` displays. -/
def Num.display : Num → String
  | .int i => toString i
  | .float x => x.display

/-- Model of `serde_yaml::Value` (the `Tagged` variant cannot arise from
plain YAML/JSON documents and is omitted). -/
inductive Value where
  | null
  | bool (b : Bool)
  | number (n : Num)
  | str (s : String)
  | sequence (items : List Value)
  | mapping (entries : List (Value × Value))

/-- Equality of a mapping key with `Value::String(k)`, as used by
`contains_key`/`get` in `validate_object`. -/
def is_str_key : Value → String → Bool
  | .str t, k => t == k
  | _, _ => false

/-- `Value::as_f64` (the local `as_f64` helper in `validate_number`). -/
def value_as_f64 : Value → Option F64
  | .number n => some n.as_f64
  | _ => none

/-- `map.contains_key(&Value::String(key))`. -/
def mapping_contains (map : List (Value × Value)) (key : String) : Bool :=
  map.any (fun e => is_str_key e.1 key)

/-- `map.get(&Value::String(key))`. -/
def mapping_get (map : List (Value × Value)) (key : String) : Option Value :=
  match map.find? (fun e => is_str_key e.1 key) with
  | some e => some e.2
  | none => none

mutual

/-- `format!("{:?}", value)` for serde_yaml values (text approximated;
no claim depends on it). -/
def debugVal : Value → String
  | .null => "Null"
  | .bool true => "Bool(true)"
  | .bool false => "Bool(false)"
  | .number n => "Number(" ++ n.display ++ ")"
  | .str s => "String(\"" ++ s ++ "\")"
  | .sequence xs => "Sequence [" ++ debugValList xs ++ "]"
  | .mapping es => "Mapping \x7b" ++ debugEntries es ++ "\x7d"

/-- Comma-separated debug rendering of a value list. -/
def debugValList : List Value → String
  | [] => ""
  | [x] => debugVal x
  | x :: rest => debugVal x ++ ", " ++ debugValList rest

/-- Comma-separated debug rendering of mapping entries. -/
def debugEntries : List (Value × Value) → String
  | [] => ""
  | [(k, v)] => debugVal k ++ ": " ++ debugVal v
  | (k, v) :: rest => debugVal k ++ ": " ++ debugVal v ++ ", " ++ debugEntries rest

end

/-- `SchemaType` from src/schema.rs. -/
inductive SchemaType where
  | string
  | integer
  | float
  | boolean
  | object
  | list
  | any
  | null
deriving DecidableEq

/-- `format!("{:?}", data_type)`. -/
def SchemaType.debugRepr : SchemaType → String
  | .string => "String"
  | .integer => "Integer"
  | .float => "Float"
  | .boolean => "Boolean"
  | .object => "Object"
  | .list => "List"
  | .any => "Any"
  | .null => "Null"

/-- `SchemaRule` from src/schema.rs, a recursive rule tree.  Field order
follows the struct declaration. -/
inductive SchemaRule where
  | mk
    (data_type : SchemaType)
    (description : Option String)
    (required : Bool)
    (keys : Option (List (String × SchemaRule)))
    (allow_unknown_keys : Bool)
    (items : Option SchemaRule)
    (min_length : Option Nat)
    (max_length : Option Nat)
    (pattern : Option String)
    (enum_values : Option (List Value))
    (min : Option Value)
    (max : Option Value)

/-- Field accessor. -/
def SchemaRule.data_type : SchemaRule → SchemaType
  | .mk dt _ _ _ _ _ _ _ _ _ _ _ => dt

/-- Field accessor. -/
def SchemaRule.description : SchemaRule → Option String
  | .mk _ d _ _ _ _ _ _ _ _ _ _ => d

/-- Field accessor. -/
def SchemaRule.required : SchemaRule → Bool
  | .mk _ _ r _ _ _ _ _ _ _ _ _ => r

/-- Field accessor. -/
def SchemaRule.keys : SchemaRule → Option (List (String × SchemaRule))
  | .mk _ _ _ k _ _ _ _ _ _ _ _ => k

/-- Field accessor. -/
def SchemaRule.allow_unknown_keys : SchemaRule → Bool
  | .mk _ _ _ _ a _ _ _ _ _ _ _ => a

/-- Field accessor. -/
def SchemaRule.items : SchemaRule → Option SchemaRule
  | .mk _ _ _ _ _ i _ _ _ _ _ _ => i

/-- Field accessor. -/
def SchemaRule.min_length : SchemaRule → Option Nat
  | .mk _ _ _ _ _ _ ml _ _ _ _ _ => ml

/-- Field accessor. -/
def SchemaRule.max_length : SchemaRule → Option Nat
  | .mk _ _ _ _ _ _ _ ml _ _ _ _ => ml

/-- Field accessor. -/
def SchemaRule.pattern : SchemaRule → Option String
  | .mk _ _ _ _ _ _ _ _ p _ _ _ => p

/-- Field accessor. -/
def SchemaRule.enum_values : SchemaRule → Option (List Value)
  | .mk _ _ _ _ _ _ _ _ _ e _ _ => e

/-- Field accessor. -/
def SchemaRule.min : SchemaRule → Option Value
  | .mk _ _ _ _ _ _ _ _ _ _ mn _ => mn

/-- Field accessor. -/
def SchemaRule.max : SchemaRule → Option Value
  | .mk _ _ _ _ _ _ _ _ _ _ _ mx => mx

/-- Schema lookup `keys.get(key_name)` (schema key maps have distinct
keys, so first-match association lookup models the HashMap). -/
def assoc_get (keys : List (String × SchemaRule)) (name : String) : Option SchemaRule :=
  (keys.find? (fun e => e.1 == name)).map (·.2)

/-- `ValidationError` from src/validation.rs. -/
structure ValidationError where
  path : String
  message : String
  expected : String
  actual : String
  description : Option String
  line : Option Nat
deriving DecidableEq

/-- `ValidationResult` from src/validation.rs. -/
inductive ValidationResult where
  | Valid
  | Invalid (errors : List ValidationError)
deriving DecidableEq

/-- The variants of `ConfigGuardError` (src/error.rs) reachable from the
schema/validation path. -/
inductive ConfigGuardError where
  | AllValidationErrors (errors : List ValidationError)
  | Pattern (msg : String)
  | Schema (msg : String)
deriving DecidableEq

/-- `ConfigGuardResult`. -/
abbrev ConfigGuardResult (α : Type) := Except ConfigGuardError α

/-- Display of the modelled `ConfigGuardError` variants (src/error.rs). -/
def ConfigGuardError.display : ConfigGuardError → String
  | .AllValidationErrors errors => "Multiple validation errors (" ++ toString errors.length ++ ")"
  | .Pattern msg => "Invalid pattern in schema: " ++ msg
  | .Schema msg => "Schema error: " ++ msg

/-- A compiled regex: its observable behaviour is `is_match`. -/
structure Regex where
  is_match : String → Bool

/-- The type of the `Regex::new` compilation oracle: a pattern either
compiles to a regex or fails with an error message. -/
abbrev RegexNew := String → Except String Regex

/-- `ConfigFormat` from src/config.rs. -/
inductive ConfigFormat where
  | yaml
  | json
deriving DecidableEq

/-- `Config` (the fields consumed by `validate`). -/
structure Config where
  data : Value
  format : ConfigFormat
  content : Option String

/-- `Schema` from src/schema.rs. -/
structure Schema where
  root : SchemaRule

/-- `validate_type` from src/validation.rs. -/
def validate_type (value : Value) (expected_type : SchemaType) : Bool :=
  match expected_type with
  | .string => match value with | .str _ => true | _ => false
  | .integer => match value with | .number n => n.is_i64 || n.is_u64 | _ => false
  | .float => match value with | .number n => n.is_f64 | _ => false
  | .boolean => match value with | .bool _ => true | _ => false
  | .object => match value with | .mapping _ => true | _ => false
  | .list => match value with | .sequence _ => true | _ => false
  | .null => match value with | .null => true | _ => false
  | .any => true

/-- `value_type_name` from src/validation.rs. -/
def value_type_name (value : Value) : String :=
  match value with
  | .str _ => "string"
  | .number n => if n.is_i64 || n.is_u64 then "integer" else "float"
  | .bool _ => "boolean"
  | .mapping _ => "object"
  | .sequence _ => "list"
  | .null => "null"

/-- Error-path construction repeated throughout `validate_object`:
an empty parent path yields `.key`, otherwise `parent.key`. -/
def joinPath (path key : String) : String :=
  if path.isEmpty then "." ++ key else path ++ "." ++ key

/-- The string-enum membership loop in `validate_string`: scan the enum
entries, setting `found` on the first string entry equal to `s`
(non-string entries are skipped silently). -/
def string_enum_found (s : String) : List Value → Bool
  | [] => false
  | e :: rest =>
    match e with
    | .str enum_str => if s == enum_str then true else string_enum_found s rest
    | _ => string_enum_found s rest

/-- The `"One of: ..."` rendering of an enum list. -/
def allowed_values_str (enum_values : List Value) : String :=
  String.intercalate ", " (enum_values.map debugVal)

/-- `validate_string` from src/validation.rs.  Note the length checks use
`s.len()`, the UTF-8 byte count. -/
def validate_string (regex_new : RegexNew) (value : Value) (rule : SchemaRule)
    (path : String) (errors : List ValidationError) :
    ConfigGuardResult (List ValidationError) :=
  match value with
  | .str s =>
    let errors :=
      match rule.min_length with
      | some min_length =>
        if s.utf8ByteSize < min_length then
          errors ++ [⟨path, "String too short",
            "At least " ++ toString min_length ++ " characters",
            toString s.utf8ByteSize ++ " characters", rule.description, none⟩]
        else errors
      | none => errors
    let errors :=
      match rule.max_length with
      | some max_length =>
        if max_length < s.utf8ByteSize then
          errors ++ [⟨path, "String too long",
            "At most " ++ toString max_length ++ " characters",
            toString s.utf8ByteSize ++ " characters", rule.description, none⟩]
        else errors
      | none => errors
    match rule.pattern with
    | some pattern =>
      match regex_new pattern with
      | .error e => .error (.Pattern ("Invalid pattern in schema: " ++ e))
      | .ok regex =>
        let errors :=
          if !(regex.is_match s) then
            errors ++ [⟨path, "String doesn\x27t match pattern",
              "Pattern: " ++ pattern, s, rule.description, none⟩]
          else errors
        match rule.enum_values with
        | some enum_values =>
          if !(string_enum_found s enum_values) then
            .ok (errors ++ [⟨path, "Value not in allowed set",
              "One of: " ++ allowed_values_str enum_values, s, rule.description, none⟩])
          else .ok errors
        | none => .ok errors
    | none =>
      match rule.enum_values with
      | some enum_values =>
        if !(string_enum_found s enum_values) then
          .ok (errors ++ [⟨path, "Value not in allowed set",
            "One of: " ++ allowed_values_str enum_values, s, rule.description, none⟩])
        else .ok errors
      | none => .ok errors
  | _ => .ok errors

/-- The `min` bound check of `validate_number` (one error when the value
is below an available numeric bound, else nothing). -/
def check_min (rule : SchemaRule) (num : F64) (path : String) : List ValidationError :=
  match rule.min with
  | some mn =>
    match value_as_f64 mn with
    | some min_val =>
      if num.flt min_val then
        [⟨path, "Value too small", "At least " ++ min_val.display,
          num.display, rule.description, none⟩]
      else []
    | none => []
  | none => []

/-- The `max` bound check of `validate_number`. -/
def check_max (rule : SchemaRule) (num : F64) (path : String) : List ValidationError :=
  match rule.max with
  | some mx =>
    match value_as_f64 mx with
    | some max_val =>
      if max_val.flt num then
        [⟨path, "Value too large", "At most " ++ max_val.display,
          num.display, rule.description, none⟩]
    else []
    | none => []
  | none => []

/-- Outcome of the numeric enum loop in `validate_number`. -/
inductive EnumScan where
  | found
  | notFound
  | bail (bad : Value)

/-- The numeric enum loop: `found` and `break` on the first entry within
`f64::EPSILON` of the value; an early `return` (`bail`) on the first
non-numeric entry reached before any match. -/
def scan_enum (num : F64) : List Value → EnumScan
  | [] => .notFound
  | enum_val :: rest =>
    match value_as_f64 enum_val with
    | some enum_num =>
      if ((num.fsub enum_num).fabs).fle f64_EPSILON then .found
      else scan_enum num rest
    | none => .bail enum_val

/-- `validate_number` from src/validation.rs. -/
def validate_number (value : Value) (rule : SchemaRule) (path : String)
    (errors : List ValidationError) : ConfigGuardResult (List ValidationError) :=
  match value_as_f64 value with
  | none => .ok errors
  | some num =>
    if num.is_nan then
      .ok (errors ++ [⟨path, "Invalid numeric value", "A valid number",
        "NaN (Not a Number)", rule.description, none⟩])
    else if num.is_infinite then
      .ok (errors ++ [⟨path, "Invalid numeric value", "A finite number",
        (if num.is_sign_positive then "Positive infinity" else "Negative infinity"),
        rule.description, none⟩])
    else
      let errors := errors ++ check_min rule num path
      let errors := errors ++ check_max rule num path
      match rule.enum_values with
      | some enum_values =>
        match scan_enum num enum_values with
        | .bail bad =>
          .ok (errors ++ [⟨path, "Invalid enum value type",
            "Numeric value for numeric field",
            "Non-numeric value: " ++ debugVal bad, rule.description, none⟩])
        | .found => .ok errors
        | .notFound =>
          .ok (errors ++ [⟨path, "Value not in allowed set",
            "One of: " ++ allowed_values_str enum_values,
            num.display, rule.description, none⟩])
      | none => .ok errors

/-- The required-keys loop at the top of `validate_object`: one
`Required key missing` error per required absent key; otherwise, for a
required object-typed key present as an empty mapping while its rule
declares a non-empty `keys` map, a `Required object is empty` error. -/
def required_errors (keys : List (String × SchemaRule))
    (map : List (Value × Value)) (path : String) : List ValidationError :=
  match keys with
  | [] => []
  | (key_name, key_rule) :: rest =>
    let here :=
      if key_rule.required ∧ ¬ mapping_contains map key_name then
        [⟨joinPath path key_name, "Required key missing", "Key to be present",
          "Key is absent", key_rule.description, none⟩]
      else if key_rule.required ∧ key_rule.data_type = SchemaType.object then
        match mapping_get map key_name with
        | some (.mapping inner_map) =>
          match key_rule.keys with
          | some inner_keys =>
            if inner_map.isEmpty ∧ ¬ inner_keys.isEmpty then
              [⟨joinPath path key_name, "Required object is empty",
                "Object with required fields", "Empty object",
                key_rule.description, none⟩]
            else []
          | none => []
        | _ => []
      else []
    here ++ required_errors rest map path

mutual

/-- `validate_node` from src/validation.rs: adjust `allow_unknown_keys`
for strict mode, check the type (on mismatch emit one error and stop),
then dispatch on the rule's type. -/
def validate_node (regex_new : RegexNew) (value : Value) (rule : SchemaRule)
    (path : String) (errors : List ValidationError) (strict : Bool) :
    ConfigGuardResult (List ValidationError) :=
  let allow_unknown_keys := if strict then false else rule.allow_unknown_keys
  if validate_type value rule.data_type = false then
    .ok (errors ++ [⟨path, "Type mismatch", rule.data_type.debugRepr,
      value_type_name value, rule.description, none⟩])
  else
    match rule.data_type with
    | .object => validate_object regex_new value rule path errors allow_unknown_keys
    | .list => validate_list regex_new value rule path errors
    | .string => validate_string regex_new value rule path errors
    | .integer => validate_number value rule path errors
    | .float => validate_number value rule path errors
    | .boolean => .ok errors
    | .null => .ok errors
    | .any => .ok errors
termination_by (sizeOf value, 1)
decreasing_by all_goals omega

/-- `validate_object` from src/validation.rs: when the value is a mapping
and the rule declares `keys`, run the required-keys loop then walk the
mapping's entries; with no `keys` the whole body is skipped. -/
def validate_object (regex_new : RegexNew) (value : Value) (rule : SchemaRule)
    (path : String) (errors : List ValidationError) (allow_unknown_keys : Bool) :
    ConfigGuardResult (List ValidationError) :=
  match value with
  | .mapping map =>
    match rule.keys with
    | some keys =>
      let errors := errors ++ required_errors keys map path
      check_entries regex_new keys map path errors allow_unknown_keys
    | none => .ok errors
  | _ => .ok errors
termination_by (sizeOf value, 0)
decreasing_by all_goals (simp_wf; omega)

/-- The per-entry loop of `validate_object`: a declared key recurses via
`validate_node` — the source passes the computed `nested_allow` flag as
the callee's `strict` argument — and an undeclared key yields `Unknown
key` when unknown keys are disallowed.  Non-string keys are skipped. -/
def check_entries (regex_new : RegexNew) (keys : List (String × SchemaRule))
    (entries : List (Value × Value)) (path : String)
    (errors : List ValidationError) (allow_unknown_keys : Bool) :
    ConfigGuardResult (List ValidationError) :=
  match entries with
  | [] => .ok errors
  | (key, val) :: rest =>
    match key with
    | .str key_name =>
      match assoc_get keys key_name with
      | some key_rule =>
        let new_path := joinPath path key_name
        let nested_allow :=
          if !allow_unknown_keys then false else key_rule.allow_unknown_keys
        match validate_node regex_new val key_rule new_path errors nested_allow with
        | .error e => .error e
        | .ok errors => check_entries regex_new keys rest path errors allow_unknown_keys
      | none =>
        if !allow_unknown_keys then
          check_entries regex_new keys rest path
            (errors ++ [⟨joinPath path key_name, "Unknown key",
              "Key defined in schema", "Undefined key", none, none⟩])
            allow_unknown_keys
        else
          check_entries regex_new keys rest path errors allow_unknown_keys
    | _ => check_entries regex_new keys rest path errors allow_unknown_keys
termination_by (sizeOf entries, 2)
decreasing_by all_goals (simp_wf; omega)

/-- `validate_list` from src/validation.rs: length bound checks (with
an early return when the list is empty and a positive minimum is
violated), then per-item validation. -/
def validate_list (regex_new : RegexNew) (value : Value) (rule : SchemaRule)
    (path : String) (errors : List ValidationError) :
    ConfigGuardResult (List ValidationError) :=
  match value with
  | .sequence items =>
    match rule.min_length with
    | some min_length =>
      if items.length < min_length then
        let errors := errors ++ [⟨path, "List too short",
          "At least " ++ toString min_length ++ " items",
          toString items.length ++ " items", rule.description, none⟩]
        if items.isEmpty ∧ 0 < min_length then .ok errors
        else validate_list_after_min regex_new items rule path errors
      else validate_list_after_min regex_new items rule path errors
    | none => validate_list_after_min regex_new items rule path errors
  | _ => .ok errors
termination_by (sizeOf value, 0)
decreasing_by all_goals (simp_wf; omega)

/-- The rest of `validate_list` after the `min_length` check: the
`max_length` check followed by the item loop. -/
def validate_list_after_min (regex_new : RegexNew) (items : List Value)
    (rule : SchemaRule) (path : String) (errors : List ValidationError) :
    ConfigGuardResult (List ValidationError) :=
  let errors :=
    match rule.max_length with
    | some max_length =>
      if max_length < items.length then
        errors ++ [⟨path, "List too long",
          "At most " ++ toString max_length ++ " items",
          toString items.length ++ " items", rule.description, none⟩]
      else errors
    | none => errors
  match rule.items with
  | some item_rule => validate_items regex_new items item_rule path errors 0
  | none => .ok errors
termination_by (sizeOf items, 3)
decreasing_by all_goals omega

/-- The item loop of `validate_list`: each element is validated at
`path[i]`, always with `strict` passed as `false`. -/
def validate_items (regex_new : RegexNew) (items : List Value)
    (item_rule : SchemaRule) (path : String) (errors : List ValidationError)
    (i : Nat) : ConfigGuardResult (List ValidationError) :=
  match items with
  | [] => .ok errors
  | item :: rest =>
    let item_path := path ++ "[" ++ toString i ++ "]"
    match validate_node regex_new item item_rule item_path errors false with
    | .error e => .error e
    | .ok errors => validate_items regex_new rest item_rule path errors (i + 1)
termination_by (sizeOf items, 2)
decreasing_by all_goals (simp_wf; omega)

end

/-- Rust `str::lines()`: split on newline, drop a final empty segment
produced by a trailing newline, strip a trailing carriage return. -/
def rust_lines (s : String) : List String :=
  let parts := s.splitOn "\n"
  let parts :=
    match parts.getLast? with
    | some "" => parts.dropLast
    | _ => parts
  parts.map (fun l => if l.endsWith "\r" then l.dropRight 1 else l)

/-- Rust `str::trim_matches(c)`: strip every leading and trailing `c`. -/
def trim_matches (c : Char) (s : String) : String :=
  let l := s.toList.dropWhile (fun x => x == c)
  let l := (l.reverse.dropWhile (fun x => x == c)).reverse
  String.mk l

/-- The key-to-line maps built by `find_line_numbers` are HashMaps whose
later inserts win; modelled by consing and first-match lookup. -/
def map_lookup (m : List (String × Nat)) (k : String) : Option Nat :=
  (m.find? (fun e => e.1 == k)).map (·.2)

/-- The YAML branch of the `path_to_line` construction: per line, the
trimmed text before the first colon, if non-empty and not a comment,
maps to the 1-based line number; a key ending in a bracket also
registers its base name. -/
def yaml_scan (lines : List String) (i : Nat) (m : List (String × Nat)) :
    List (String × Nat) :=
  match lines with
  | [] => m
  | line :: rest =>
    let trimmed := line.trim
    let m :=
      match (trimmed.splitOn ":").head? with
      | some key =>
        let key := key.trim
        if ¬ key.isEmpty ∧ ¬ key.startsWith "#" then
          let m := (key, i + 1) :: m
          if key.endsWith "]" then
            match (key.splitOn "[").head? with
            | some base_key => (base_key, i + 1) :: m
            | none => m
          else m
        else m
      | none => m
    yaml_scan rest (i + 1) m

/-- The JSON branch of the `path_to_line` construction: lines containing
a quote and a colon map the quote-trimmed key before the colon to the
line number. -/
def json_scan (lines : List String) (i : Nat) (m : List (String × Nat)) :
    List (String × Nat) :=
  match lines with
  | [] => m
  | line :: rest =>
    let trimmed := line.trim
    let m :=
      if trimmed.contains '"' ∧ trimmed.contains ':' then
        match (trimmed.splitOn ":").head? with
        | some key =>
          let key := trim_matches '"' (trim_matches '"' key.trim)
          if ¬ key.isEmpty then (key, i + 1) :: m else m
        | none => m
      else m
    json_scan rest (i + 1) m

/-- The `path_to_line` map of `find_line_numbers`. -/
def build_path_map (content : String) (format : ConfigFormat) :
    List (String × Nat) :=
  match format with
  | .yaml => yaml_scan (rust_lines content) 0 []
  | .json => json_scan (rust_lines content) 0 []

/-- The last dotted component of an error path. -/
def last_path_component (path : String) : Option String :=
  (path.splitOn ".").getLast?

/-- Strip a trailing `[i]` index suffix for map matching. -/
def clean_component (c : String) : String :=
  if c.contains '[' then (c.splitOn "[").headD c else c

/-- `find_line_numbers` from src/validation.rs: build the key-to-line
map, then for each error set `line` when the cleaned last path
component is found (the source updates each slice element in place;
the pure translation maps over the list). -/
def find_line_numbers (content : String) (errors : List ValidationError)
    (format : ConfigFormat) : List ValidationError :=
  let path_to_line := build_path_map content format
  errors.map (fun error =>
    match last_path_component error.path with
    | some last_component =>
      match map_lookup path_to_line (clean_component last_component) with
      | some line => { error with line := some line }
      | none => error
    | none => error)

/-- `validate` from src/validation.rs: run the walk, enrich with line
numbers when the raw content is available, and return `Valid` for an
empty error list or `AllValidationErrors` carrying every error. -/
def validate (regex_new : RegexNew) (config : Config) (schema : Schema)
    (strict : Bool) : ConfigGuardResult ValidationResult :=
  match validate_node regex_new config.data schema.root "" [] strict with
  | .error e => .error e
  | .ok errors =>
    let errors :=
      match config.content with
      | some content => find_line_numbers content errors config.format
      | none => errors
    if errors.isEmpty then .ok .Valid
    else .error (.AllValidationErrors errors)

/-- The numeric branch of `validate_schema_rule` (shared by `integer`
and `float` in the source's match arm). -/
def validate_numeric_rule (context : String)
    (keys : Option (List (String × SchemaRule))) (items : Option SchemaRule)
    (min_length max_length : Option Nat) (pattern : Option String)
    (mn mx : Option Value) : ConfigGuardResult Unit :=
  if keys.isSome then
    .error (.Schema ("\x27keys\x27 is only valid for type \x27object\x27, not numeric type " ++ context))
  else if items.isSome then
    .error (.Schema ("\x27items\x27 is only valid for type \x27list\x27, not numeric type " ++ context))
  else if min_length.isSome ∨ max_length.isSome then
    .error (.Schema ("\x27min_length\x27 and \x27max_length\x27 are only valid for type \x27string\x27 or \x27list\x27, not numeric type " ++ context))
  else if pattern.isSome then
    .error (.Schema ("\x27pattern\x27 is only valid for type \x27string\x27, not numeric type " ++ context))
  else
    match mn, mx with
    | some mnv, some mxv =>
      match value_as_f64 mnv, value_as_f64 mxv with
      | some min_num, some max_num =>
        if max_num.flt min_num then
          .error (.Schema ("\x27min\x27 (" ++ min_num.display ++ ") cannot be greater than \x27max\x27 (" ++ max_num.display ++ ") " ++ context))
        else .ok ()
      | _, _ =>
        .error (.Schema ("Non-numeric values used for \x27min\x27/\x27max\x27 in schema " ++ context))
    | _, _ => .ok ()

/-- The boolean/null branch of `validate_schema_rule`. -/
def validate_plain_rule (context : String)
    (keys : Option (List (String × SchemaRule))) (items : Option SchemaRule)
    (min_length max_length : Option Nat) (pattern : Option String)
    (mn mx : Option Value) : ConfigGuardResult Unit :=
  if keys.isSome then
    .error (.Schema ("\x27keys\x27 is only valid for type \x27object\x27 " ++ context))
  else if items.isSome then
    .error (.Schema ("\x27items\x27 is only valid for type \x27list\x27 " ++ context))
  else if min_length.isSome ∨ max_length.isSome then
    .error (.Schema ("\x27min_length\x27 and \x27max_length\x27 are only valid for type \x27string\x27 or \x27list\x27 " ++ context))
  else if pattern.isSome then
    .error (.Schema ("\x27pattern\x27 is only valid for type \x27string\x27 " ++ context))
  else if mn.isSome ∨ mx.isSome then
    .error (.Schema ("\x27min\x27 and \x27max\x27 are only valid for numeric types " ++ context))
  else .ok ()

/-- The context string of `validate_schema_rule` error messages. -/
def rule_context (dt : SchemaType) (desc : Option String) : String :=
  match desc with
  | some d => "for field \x27" ++ d ++ "\x27"
  | none => "for field of type " ++ dt.debugRepr

/-- The min/max length ordering cross-check of `validate_schema_rule`
(shared by the `list` and `string` branches). -/
def check_length_order (context : String) (min_length max_length : Option Nat) :
    ConfigGuardResult Unit :=
  match min_length, max_length with
  | some mnl, some mxl =>
    if mxl < mnl then
      .error (.Schema ("\x27min_length\x27 cannot be greater than \x27max_length\x27 " ++ context))
    else .ok ()
  | _, _ => .ok ()

/-- The load-time pattern compilation of `validate_schema_rule` for
string rules. -/
def compile_pattern_rule (regex_new : RegexNew) (context : String)
    (pattern : Option String) : ConfigGuardResult Unit :=
  match pattern with
  | some p =>
    match regex_new p with
    | .error e =>
      .error (.Pattern ("Invalid regex pattern \x27" ++ p ++ "\x27 " ++ context ++ ": " ++ e))
    | .ok _ => .ok ()
  | none => .ok ()

mutual

/-- `Schema::validate_schema_rule` from src/schema.rs: per-type
whitelist of constraint fields, recursive validation of `keys` and
`items`, bound-ordering checks, and load-time compilation of `pattern`
for string rules. -/
def validate_schema_rule (regex_new : RegexNew) : SchemaRule → ConfigGuardResult Unit
  | .mk .object desc _ keys _ items min_length max_length pattern _ mn mx =>
    let context := rule_context .object desc
    match ((match keys with
           | some ks => validate_key_rules regex_new ks
           | none => .ok ()) : ConfigGuardResult Unit) with
    | .error e => .error e
    | .ok () =>
      if items.isSome then
        .error (.Schema ("\x27items\x27 is only valid for type \x27list\x27, not \x27object\x27 " ++ context))
      else if min_length.isSome ∨ max_length.isSome then
        .error (.Schema ("\x27min_length\x27 and \x27max_length\x27 are not valid for type \x27object\x27 " ++ context))
      else if pattern.isSome then
        .error (.Schema ("\x27pattern\x27 is only valid for type \x27string\x27, not \x27object\x27 " ++ context))
      else if mn.isSome ∨ mx.isSome then
        .error (.Schema ("\x27min\x27 and \x27max\x27 are only valid for numeric types, not \x27object\x27 " ++ context))
      else .ok ()
  | .mk .list desc _ keys _ items min_length max_length pattern _ mn mx =>
    let context := rule_context .list desc
    if keys.isSome then
      .error (.Schema ("\x27keys\x27 is only valid for type \x27object\x27, not \x27list\x27 " ++ context))
    else if pattern.isSome then
      .error (.Schema ("\x27pattern\x27 is only valid for type \x27string\x27, not \x27list\x27 " ++ context))
    else if mn.isSome ∨ mx.isSome then
      .error (.Schema ("\x27min\x27 and \x27max\x27 are only valid for numeric types, not \x27list\x27 " ++ context))
    else
      match ((match items with
             | some items_rule =>
               match validate_schema_rule regex_new items_rule with
               | .error e => .error (.Schema ("Invalid schema rule for list items " ++ context ++ ": " ++ e.display))
               | .ok () => .ok ()
             | none => .ok ()) : ConfigGuardResult Unit) with
      | .error e => .error e
      | .ok () => check_length_order context min_length max_length
  | .mk .string desc _ keys _ items min_length max_length pattern _ mn mx =>
    let context := rule_context .string desc
    if keys.isSome then
      .error (.Schema ("\x27keys\x27 is only valid for type \x27object\x27, not \x27string\x27 " ++ context))
    else if items.isSome then
      .error (.Schema ("\x27items\x27 is only valid for type \x27list\x27, not \x27string\x27 " ++ context))
    else if mn.isSome ∨ mx.isSome then
      .error (.Schema ("\x27min\x27 and \x27max\x27 are only valid for numeric types, not \x27string\x27 " ++ context))
    else
      match check_length_order context min_length max_length with
      | .error e => .error e
      | .ok () => compile_pattern_rule regex_new context pattern
  | .mk .integer desc _ keys _ items min_length max_length pattern _ mn mx =>
    validate_numeric_rule (rule_context .integer desc) keys items min_length max_length pattern mn mx
  | .mk .float desc _ keys _ items min_length max_length pattern _ mn mx =>
    validate_numeric_rule (rule_context .float desc) keys items min_length max_length pattern mn mx
  | .mk .boolean desc _ keys _ items min_length max_length pattern _ mn mx =>
    validate_plain_rule (rule_context .boolean desc) keys items min_length max_length pattern mn mx
  | .mk .null desc _ keys _ items min_length max_length pattern _ mn mx =>
    validate_plain_rule (rule_context .null desc) keys items min_length max_length pattern mn mx
  | .mk .any desc _ keys _ items min_length max_length pattern _ mn mx =>
    let context := rule_context .any desc
    if keys.isSome then
      .error (.Schema ("\x27keys\x27 is only valid for type \x27object\x27, not \x27any\x27 " ++ context))
    else if items.isSome then
      .error (.Schema ("\x27items\x27 is only valid for type \x27list\x27, not \x27any\x27 " ++ context))
    else if min_length.isSome ∨ max_length.isSome then
      .error (.Schema ("\x27min_length\x27 and \x27max_length\x27 are only valid for specific types, not \x27any\x27 " ++ context))
    else if pattern.isSome then
      .error (.Schema ("\x27pattern\x27 is only valid for type \x27string\x27, not \x27any\x27 " ++ context))
    else if mn.isSome ∨ mx.isSome then
      .error (.Schema ("\x27min\x27 and \x27max\x27 are only valid for numeric types, not \x27any\x27 " ++ context))
    else .ok ()
termination_by rule => (sizeOf rule, 1)
decreasing_by all_goals (simp_wf; omega)

/-- The recursive validation of every child rule under an object schema,
wrapping child failures with the offending key name. -/
def validate_key_rules (regex_new : RegexNew) :
    List (String × SchemaRule) → ConfigGuardResult Unit
  | [] => .ok ()
  | (key_name, key_rule) :: rest =>
    match validate_schema_rule regex_new key_rule with
    | .error e =>
      .error (.Schema ("Invalid schema rule for key \x27" ++ key_name ++ "\x27: " ++ e.display))
    | .ok () => validate_key_rules regex_new rest
termination_by keys => (sizeOf keys, 0)
decreasing_by all_goals (simp_wf; omega)

end

/-- The post-walk line enrichment step of `validate`: applied when the
raw content is available, the identity otherwise. -/
def applied_line_numbers (config : Config) (errors : List ValidationError) :
    List ValidationError :=
  match config.content with
  | some content => find_line_numbers content errors config.format
  | none => errors

/-- A compilation oracle for schemas that use no pattern (never consulted). -/
def rnew0 : RegexNew := fun p => .error p

/-- A compilation oracle whose regexes match everything. -/
def rnewAll : RegexNew := fun _ => .ok ⟨fun _ => true⟩

/-- A plain string rule with every optional field absent and defaults. -/
def strRule : SchemaRule := .mk .string none false none true none none none none none none none

/-- A plain integer rule. -/
def intRule : SchemaRule := .mk .integer none false none true none none none none none none none

/-- An object rule with the given `keys` and the default
`allow_unknown_keys: true`. -/
def objRule (ks : List (String × SchemaRule)) : SchemaRule :=
  .mk .object none false (some ks) true none none none none none none none

/-- An object rule with `keys` absent. -/
def noKeysObjRule : SchemaRule := .mk .object none false none true none none none none none none none

/-- Document `a: \x7b y: 1 \x7d`: the nested key `y` is not declared by
`schema1`. -/
def doc1 : Value := .mapping [(.str "a", .mapping [(.str "y", .number (.int 1))])]

/-- Schema declaring a root object with key `a`, itself an object
declaring only key `x`; every rule keeps `allow_unknown_keys: true`. -/
def schema1 : Schema := ⟨objRule [("a", objRule [("x", strRule)])]⟩

/-- A string rule with `max_length: 1`. -/
def strMax1 : SchemaRule := .mk .string none false none true none none (some 1) none none none none

/-- A float rule with `enum: [1, "a"]` — a numeric entry followed by a
non-numeric one. -/
def enumMixedRule : SchemaRule :=
  .mk .float none false none true none none none none (some [.number (.int 1), .str "a"]) none none

/-- A float rule with `enum: [1]`. -/
def enumInt1Rule : SchemaRule :=
  .mk .float none false none true none none none none (some [.number (.int 1)]) none none

/-- A float rule with `enum: ["b"]` — only a non-numeric entry. -/
def enumStrBRule : SchemaRule :=
  .mk .float none false none true none none none none (some [.str "b"]) none none

/-- A string rule with `pattern: "^v1"`. -/
def patRule : SchemaRule :=
  .mk .string none false none true none none none (some "^v1") none none none

/-- A one-error list whose path's last segment is `name`, with `line`
absent. -/
def errs9 : List ValidationError := [⟨".name", "m", "e", "a", none, none⟩]

/-- The numeric enum loop bails with the first non-numeric entry when no
earlier entry matches within `f64::EPSILON`. -/
theorem scan_enum_bail (num : F64) (es₁ es₂ : List Value) (bad : Value)
    (hbad : value_as_f64 bad = none)
    (h : ∀ e ∈ es₁, ∃ x, value_as_f64 e = some x ∧
      ((num.fsub x).fabs).fle f64_EPSILON = false) :
    scan_enum num (es₁ ++ bad :: es₂) = .bail bad := by
  induction es₁ with
  | nil => simp [scan_enum, hbad]
  | cons e rest ih =>
    obtain ⟨x, hx, hf⟩ := h e (List.mem_cons_self e rest)
    simp only [List.cons_append, scan_enum, hx, hf]
    simpa using ih (fun e' he' => h e' (List.mem_cons_of_mem e he'))

/-- C8: For all documents, schemas and strict flags, `validate` returns
`Valid` on one run exactly when it returns `Valid` on a second run with
the same inputs: the engine is a pure function of its arguments, so the
validity verdict is deterministic. -/
theorem C8_validate_deterministic (regex_new : RegexNew) (config : Config)
    (schema : Schema) (strict : Bool) :
    validate regex_new config schema strict = .ok .Valid ↔
    validate regex_new config schema strict = .ok .Valid :=
  Iff.rfl

/-- C4: On a type mismatch, `validate_node` appends exactly one
`Type mismatch` error carrying the expected and actual type names and
performs no further checks: the result extends the incoming error list
by that single error, so no length/pattern/enum/range/required-key or
unknown-key error is produced at or below the node from this rule. -/
theorem C4_type_mismatch_single_error (regex_new : RegexNew) (value : Value)
    (rule : SchemaRule) (path : String) (errors : List ValidationError)
    (strict : Bool) (h : validate_type value rule.data_type = false) :
    validate_node regex_new value rule path errors strict =
      .ok (errors ++ [⟨path, "Type mismatch", rule.data_type.debugRepr,
        value_type_name value, rule.description, none⟩]) := by
  rw [validate_node]
  simp [h]

/-- Witness for C4: an integer-typed rule applied to a string value
yields exactly the one `Type mismatch` error. -/
theorem C4_witness :
    validate_node rnew0 (Value.str "s") intRule ".age" [] false =
      .ok [⟨".age", "Type mismatch", "Integer", "string", none, none⟩] := by
  have h := C4_type_mismatch_single_error rnew0 (Value.str "s") intRule ".age" [] false (by rfl)
  simpa [intRule, SchemaRule.data_type, SchemaRule.description, SchemaType.debugRepr,
    value_type_name] using h

/-- C10: An object-typed rule whose `keys` field is absent skips the
whole object-checking body: validating any mapping against it leaves
the error list unchanged — no required-key checks, no recursion into
the mapping's values, and no `Unknown key` errors even in strict mode. -/
theorem C10_absent_keys_skips_object (regex_new : RegexNew) (rule : SchemaRule)
    (m : List (Value × Value)) (path : String) (errors : List ValidationError)
    (strict : Bool) (h1 : rule.data_type = .object) (h2 : rule.keys = none) :
    validate_node regex_new (.mapping m) rule path errors strict = .ok errors := by
  rw [validate_node]
  simp [h1, h2, validate_type, validate_object]

/-- Witness for C10: a keys-less object rule accepts a non-empty mapping
with no errors even under strict mode. -/
theorem C10_witness :
    validate_node rnew0 (Value.mapping [(.str "k", .null)]) noKeysObjRule "" [] true =
      .ok [] :=
  C10_absent_keys_skips_object rnew0 noKeysObjRule [(.str "k", .null)] "" [] true rfl rfl

/-- C1 is false of the code: with `strict = true` and a depth-2 unknown
key `y` under declared key `a` whose sub-rule sets
`allow_unknown_keys: true`, `validate` returns `Valid` — no `Unknown
key` error is produced.  The cause is `validate_object` passing its
computed `nested_allow` flag as the `strict` parameter of
`validate_node` (src/validation.rs line 257), inverting the flag's
polarity at each nesting level, contrary to the adjacent comment
"Pass down the strict mode setting to nested validations". -/
theorem C1_strict_not_propagated :
    validate rnew0 ⟨doc1, .yaml, none⟩ schema1 true = .ok .Valid ∧
    assoc_get [("x", strRule)] "y" = none := by
  constructor
  · simp [validate, validate_node, validate_object, check_entries, required_errors,
      assoc_get, doc1, schema1, objRule, strRule, validate_type, SchemaRule.data_type,
      SchemaRule.keys, SchemaRule.allow_unknown_keys, SchemaRule.required,
      SchemaRule.description, SchemaRule.min_length, SchemaRule.max_length,
      SchemaRule.pattern, SchemaRule.enum_values, validate_string, mapping_contains,
      is_str_key, joinPath]
  · rfl

/-- C2 is false of the code for the same reason as C1 with the polarity
reversed: with `strict = false` and every rule on the path keeping the
default `allow_unknown_keys: true`, the depth-2 unknown key `y` IS
reported as an `Unknown key` error at `.a.y`. -/
theorem C2_default_reports_nested_unknown :
    validate rnew0 ⟨doc1, .yaml, none⟩ schema1 false =
      .error (.AllValidationErrors
        [⟨".a.y", "Unknown key", "Key defined in schema", "Undefined key", none, none⟩]) := by
  simp [validate, validate_node, validate_object, check_entries, required_errors,
    assoc_get, doc1, schema1, objRule, strRule, validate_type, SchemaRule.data_type,
    SchemaRule.keys, SchemaRule.allow_unknown_keys, SchemaRule.required,
    SchemaRule.description, SchemaRule.min_length, SchemaRule.max_length,
    SchemaRule.pattern, SchemaRule.enum_values, validate_string, mapping_contains,
    is_str_key, joinPath]
  decide

/-- C6 is false of the code: the length checks in `validate_string` use
`s.len()`, the UTF-8 byte count, not the character count.  The
one-character string `"é"` (two bytes) violates `max_length: 1` and is
reported as `String too long` with an actual of `2 characters`, while
a character count of 1 satisfies the bound. -/
theorem C6_byte_length_not_char_count :
    "é".length = 1 ∧
    validate_string rnew0 (.str "é") strMax1 "" [] =
      .ok [⟨"", "String too long", "At most 1 characters", "2 characters", none, none⟩] := by
  constructor
  · rfl
  · rfl

/-- Counterexample to C5 as stated: the rule's enum `[1, "a"]` contains
the non-numeric entry `"a"`, yet validating the numeric value `1.0`
produces no error at all — the loop breaks on the matching entry `1`
before reaching the non-numeric entry, a silent pass. -/
theorem C5_counterexample_silent_pass :
    enumMixedRule.enum_values = some [.number (.int 1), .str "a"] ∧
    value_as_f64 (Value.str "a") = none ∧
    validate_number (.number (.float (.finite 1))) enumMixedRule "" [] = .ok [] := by
  refine ⟨rfl, rfl, ?_⟩
  simp [validate_number, enumMixedRule, value_as_f64, Num.as_f64, F64.is_nan,
      F64.is_infinite, check_min, check_max, SchemaRule.min, SchemaRule.max,
      SchemaRule.enum_values, scan_enum, F64.fsub, F64.fabs, F64.fle, f64_EPSILON]

/-- C5 amended: numeric enum membership is decided by a comparison
within `f64::EPSILON` (so `1.0` against enum `[1]` passes), and a
non-numeric enum entry produces exactly one `Invalid enum value type`
error provided no entry before it matches the value — if an earlier
entry matches, the loop breaks first and validation passes silently. -/
theorem C5_amended_enum_behaviour :
    (validate_number (.number (.float (.finite 1))) enumInt1Rule "" [] = .ok []) ∧
    (∀ (rule : SchemaRule) (path : String) (errors : List ValidationError)
       (q : ℚ) (es₁ es₂ : List Value) (bad : Value),
       rule.enum_values = some (es₁ ++ bad :: es₂) →
       value_as_f64 bad = none →
       (∀ e ∈ es₁, ∃ x, value_as_f64 e = some x ∧
         (((F64.finite q).fsub x).fabs).fle f64_EPSILON = false) →
       validate_number (.number (.float (.finite q))) rule path errors =
         .ok ((errors ++ check_min rule (.finite q) path ++ check_max rule (.finite q) path) ++
           [⟨path, "Invalid enum value type", "Numeric value for numeric field",
             "Non-numeric value: " ++ debugVal bad, rule.description, none⟩])) := by
  constructor
  · simp [validate_number, enumInt1Rule, value_as_f64, Num.as_f64, F64.is_nan,
      F64.is_infinite, check_min, check_max, SchemaRule.min, SchemaRule.max,
      SchemaRule.enum_values, scan_enum, F64.fsub, F64.fabs, F64.fle, f64_EPSILON]
  · intro rule path errors q es₁ es₂ bad henum hbad h
    have hscan := scan_enum_bail (.finite q) es₁ es₂ bad hbad h
    simp [validate_number, value_as_f64, Num.as_f64, F64.is_nan, F64.is_infinite,
      henum, hscan]

/-- Witness for the amended C5: a lone non-numeric enum entry `"b"` is
reported as `Invalid enum value type` when validating `1.0`. -/
theorem C5_amended_witness :
    validate_number (.number (.float (.finite 1))) enumStrBRule "" [] =
      .ok [⟨"", "Invalid enum value type", "Numeric value for numeric field",
        "Non-numeric value: String(\"b\")", none, none⟩] := by
  have h := C5_amended_enum_behaviour.2 enumStrBRule "" [] 1 [] [] (.str "b")
    (by rfl) (by rfl) (by intro e he; cases he)
  simpa [enumStrBRule, check_min, check_max, SchemaRule.min, SchemaRule.max,
    SchemaRule.description, debugVal] using h

/-- The line-enrichment step never changes the number of errors. -/
theorem applied_line_numbers_length (config : Config) (errs : List ValidationError) :
    (applied_line_numbers config errs).length = errs.length := by
  unfold applied_line_numbers
  cases config.content <;> simp [find_line_numbers]

/-- C3: When the recursive walk completes having collected `errs`,
`validate` returns `Valid` exactly when `errs` is empty, and otherwise
returns the `AllValidationErrors` outcome (the `Invalid` result of the
spec) carrying the complete collected list, line-enriched: same length,
never a partially valid outcome. -/
theorem C3_valid_iff_no_errors (regex_new : RegexNew) (config : Config)
    (schema : Schema) (strict : Bool) (errs : List ValidationError)
    (h : validate_node regex_new config.data schema.root "" [] strict = .ok errs) :
    (validate regex_new config schema strict = .ok .Valid ↔ errs = []) ∧
    (errs ≠ [] →
      validate regex_new config schema strict =
        .error (.AllValidationErrors (applied_line_numbers config errs)) ∧
      (applied_line_numbers config errs).length = errs.length) := by
  have hlen := applied_line_numbers_length config errs
  have hval : validate regex_new config schema strict =
      (if (applied_line_numbers config errs).isEmpty then .ok .Valid
       else .error (.AllValidationErrors (applied_line_numbers config errs))) := by
    unfold validate applied_line_numbers
    rw [h]
  by_cases he : errs = []
  · subst he
    have hnil : applied_line_numbers config [] = [] :=
      List.eq_nil_of_length_eq_zero (applied_line_numbers_length config [])
    rw [hval, hnil]
    simp
  · have hlist : (applied_line_numbers config errs).isEmpty = false := by
      rw [List.isEmpty_eq_false_iff_exists_mem]
      rcases List.exists_mem_of_length_pos (by rw [hlen]; exact List.length_pos.mpr he) with ⟨x, hx⟩
      exact ⟨x, hx⟩
    rw [hval, hlist]
    constructor
    · simp [he]
    · intro hne
      exact ⟨by simp, hlen⟩

/-- Witness for C3: a document with no violations yields `Valid`. -/
theorem C3_witness :
    validate rnew0 ⟨Value.str "x", .yaml, none⟩ ⟨strRule⟩ false = .ok .Valid :=
  ((C3_valid_iff_no_errors rnew0 ⟨Value.str "x", .yaml, none⟩ ⟨strRule⟩ false []
    (by rw [validate_node]; rfl)).1).mpr rfl

/-- C9: The line-mapping pass is a pure enrichment of the walk's error
list (whose errors all carry `line = none`): it preserves the number
and order of errors and every field except `line`, and sets `line`
exactly to the result of looking up the path's last dotted segment,
stripped of a trailing index suffix, in the key-to-line map — absent
when the lookup fails. -/
theorem C9_line_mapping_enrichment (content : String) (fmt : ConfigFormat)
    (errors : List ValidationError) (h : ∀ e ∈ errors, e.line = none) :
    (find_line_numbers content errors fmt).length = errors.length ∧
    ∀ i (hi : i < errors.length) (hi2 : i < (find_line_numbers content errors fmt).length),
      ((find_line_numbers content errors fmt).get ⟨i, hi2⟩).path = (errors.get ⟨i, hi⟩).path ∧
      ((find_line_numbers content errors fmt).get ⟨i, hi2⟩).message = (errors.get ⟨i, hi⟩).message ∧
      ((find_line_numbers content errors fmt).get ⟨i, hi2⟩).expected = (errors.get ⟨i, hi⟩).expected ∧
      ((find_line_numbers content errors fmt).get ⟨i, hi2⟩).actual = (errors.get ⟨i, hi⟩).actual ∧
      ((find_line_numbers content errors fmt).get ⟨i, hi2⟩).description = (errors.get ⟨i, hi⟩).description ∧
      ((find_line_numbers content errors fmt).get ⟨i, hi2⟩).line =
        (match last_path_component (errors.get ⟨i, hi⟩).path with
         | some lc => map_lookup (build_path_map content fmt) (clean_component lc)
         | none => none) := by
  constructor
  · simp [find_line_numbers]
  · intro i hi hi2
    have hmem : errors.get ⟨i, hi⟩ ∈ errors := errors.get_mem i hi
    have hline := h _ hmem
    simp only [find_line_numbers, List.get_eq_getElem, List.getElem_map]
    cases hl : last_path_component (errors.get ⟨i, hi⟩).path with
    | none =>
      simp only [List.get_eq_getElem] at hl hline
      simp [hl, hline]
    | some lc =>
      cases hm : map_lookup (build_path_map content fmt) (clean_component lc) with
      | none =>
        simp only [List.get_eq_getElem] at hl hline
        simp [hl, hm, hline]
      | some ln =>
        simp only [List.get_eq_getElem] at hl
        simp [hl, hm]

/-- Witness for C9: enrichment preserves the length of a concrete
error list over a concrete YAML source. -/
theorem C9_witness :
    (find_line_numbers "name: x" errs9 .yaml).length = errs9.length :=
  (C9_line_mapping_enrichment "name: x" .yaml errs9 (by decide)).1

/-- `validate_number` cannot fail: every branch produces `ok`. -/
theorem validate_number_ok (value : Value) (rule : SchemaRule) (path : String)
    (errors : List ValidationError) :
    ∃ out, validate_number value rule path errors = .ok out := by
  unfold validate_number
  repeat first
  | exact ⟨_, rfl⟩
  | split

/-- `validate_string` can only fail in the pattern-compilation branch;
when every declared pattern compiles it produces `ok`. -/
theorem validate_string_ok (regex_new : RegexNew) (value : Value) (rule : SchemaRule)
    (path : String) (errors : List ValidationError)
    (hpat : ∀ p, rule.pattern = some p → ∃ r, regex_new p = .ok r) :
    ∃ out, validate_string regex_new value rule path errors = .ok out := by
  cases value with
  | str s =>
    cases hp : rule.pattern with
    | none =>
      unfold validate_string
      rw [hp]
      repeat first
      | exact ⟨_, rfl⟩
      | split
      all_goals simp_all
      all_goals repeat first
      | exact ⟨_, rfl⟩
      | split
    | some p =>
      obtain ⟨r, hr⟩ := hpat p hp
      unfold validate_string
      simp only [hp, hr]
      repeat first
      | exact ⟨_, rfl⟩
      | split
  | null => exact ⟨errors, rfl⟩
  | bool b => exact ⟨errors, rfl⟩
  | number n => exact ⟨errors, rfl⟩
  | sequence items => exact ⟨errors, rfl⟩
  | mapping entries => exact ⟨errors, rfl⟩

/-- A successful `validate_key_rules` run certifies every key's rule. -/
theorem validate_key_rules_ok {regex_new : RegexNew} :
    ∀ {keys : List (String × SchemaRule)}, validate_key_rules regex_new keys = .ok () →
      ∀ kr ∈ keys, validate_schema_rule regex_new kr.2 = .ok () := by
  intro keys
  induction keys with
  | nil => intro _ kr hkr; cases hkr
  | cons hd tl ih =>
    obtain ⟨name, r⟩ := hd
    intro hok kr hkr
    simp only [validate_key_rules] at hok
    cases hv : validate_schema_rule regex_new r with
    | error e => rw [hv] at hok; simp at hok
    | ok u =>
      cases u
      rw [hv] at hok
      rcases List.mem_cons.mp hkr with rfl | hmem
      · exact hv
      · exact ih (by simpa using hok) kr hmem

/-- A schema-valid object rule with declared keys has schema-valid key
rules. -/
theorem schema_ok_object_keys {regex_new : RegexNew} {rule : SchemaRule}
    {ks : List (String × SchemaRule)}
    (hok : validate_schema_rule regex_new rule = .ok ())
    (hdt : rule.data_type = .object) (hk : rule.keys = some ks) :
    validate_key_rules regex_new ks = .ok () := by
  obtain ⟨dt, desc, req, keys, auk, items, mnl, mxl, pat, env, mn, mx⟩ := rule
  simp only [SchemaRule.data_type] at hdt
  simp only [SchemaRule.keys] at hk
  subst hdt
  subst hk
  simp only [validate_schema_rule] at hok
  cases hv : validate_key_rules regex_new ks with
  | error e => rw [hv] at hok; simp at hok
  | ok u => cases u; rfl

/-- A schema-valid list rule with an `items` rule has a schema-valid
`items` rule. -/
theorem schema_ok_items {regex_new : RegexNew} {rule ir : SchemaRule}
    (hok : validate_schema_rule regex_new rule = .ok ())
    (hdt : rule.data_type = .list) (hi : rule.items = some ir) :
    validate_schema_rule regex_new ir = .ok () := by
  obtain ⟨dt, desc, req, keys, auk, items, mnl, mxl, pat, env, mn, mx⟩ := rule
  simp only [SchemaRule.data_type] at hdt
  simp only [SchemaRule.items] at hi
  subst hdt
  subst hi
  simp only [validate_schema_rule] at hok
  cases hv : validate_schema_rule regex_new ir with
  | ok u => cases u; rfl
  | error e =>
    rw [hv] at hok
    repeat' split at hok
    all_goals simp_all

/-- A schema-valid string rule's pattern compiles. -/
theorem schema_ok_pattern {regex_new : RegexNew} {rule : SchemaRule} {p : String}
    (hok : validate_schema_rule regex_new rule = .ok ())
    (hdt : rule.data_type = .string) (hp : rule.pattern = some p) :
    ∃ r, regex_new p = .ok r := by
  obtain ⟨dt, desc, req, keys, auk, items, mnl, mxl, pat, env, mn, mx⟩ := rule
  simp only [SchemaRule.data_type] at hdt
  simp only [SchemaRule.pattern] at hp
  subst hdt
  subst hp
  simp only [validate_schema_rule, compile_pattern_rule] at hok
  cases hr : regex_new p with
  | ok r => exact ⟨r, rfl⟩
  | error e =>
    rw [hr] at hok
    repeat' split at hok
    all_goals simp_all

/-- The entry loop of `validate_object` cannot fail when every schema
key rule is valid and recursion on each entry value cannot fail. -/
theorem check_entries_ok (regex_new : RegexNew) (keys : List (String × SchemaRule)) :
    ∀ (entries : List (Value × Value)) (path : String)
      (errors : List ValidationError) (allow : Bool),
      (∀ kv ∈ entries, ∀ (rule : SchemaRule) (p : String)
        (errs : List ValidationError) (b : Bool),
        validate_schema_rule regex_new rule = .ok () →
        ∃ out, validate_node regex_new kv.2 rule p errs b = .ok out) →
      (∀ kr ∈ keys, validate_schema_rule regex_new kr.2 = .ok ()) →
      ∃ out, check_entries regex_new keys entries path errors allow = .ok out := by
  intro entries
  induction entries with
  | nil => intro path errors allow _ _; exact ⟨errors, by simp [check_entries]⟩
  | cons kv rest ih =>
    obtain ⟨key, val⟩ := kv
    intro path errors allow H Hkeys
    cases key with
    | str key_name =>
      cases hg : assoc_get keys key_name with
      | some key_rule =>
        have hrok : validate_schema_rule regex_new key_rule = .ok () := by
          unfold assoc_get at hg
          cases hf : keys.find? (fun e => e.1 == key_name) with
          | none => rw [hf] at hg; cases hg
          | some pr =>
            rw [hf] at hg
            have hmem := List.mem_of_find?_eq_some hf
            simp at hg
            subst hg
            exact Hkeys pr hmem
        obtain ⟨out1, hout1⟩ := H (Value.str key_name, val) (List.mem_cons_self _ _)
          key_rule (joinPath path key_name) errors
          (if !allow then false else key_rule.allow_unknown_keys) hrok
        obtain ⟨out2, hout2⟩ := ih path out1 allow
          (fun kv hkv => H kv (List.mem_cons_of_mem _ hkv)) Hkeys
        exact ⟨out2, by
          simp only [check_entries, hg]
          rw [hout1]
          exact hout2⟩
      | none =>
        cases allow with
        | true =>
          obtain ⟨out, hout⟩ := ih path errors true
            (fun kv hkv => H kv (List.mem_cons_of_mem _ hkv)) Hkeys
          exact ⟨out, by
            simp only [check_entries, hg]
            simpa using hout⟩
        | false =>
          obtain ⟨out, hout⟩ := ih path
            (errors ++ [⟨joinPath path key_name, "Unknown key",
              "Key defined in schema", "Undefined key", none, none⟩]) false
            (fun kv hkv => H kv (List.mem_cons_of_mem _ hkv)) Hkeys
          exact ⟨out, by
            simp only [check_entries, hg]
            simpa using hout⟩
    | null =>
      obtain ⟨out, hout⟩ := ih path errors allow
        (fun kv hkv => H kv (List.mem_cons_of_mem _ hkv)) Hkeys
      exact ⟨out, by simp only [check_entries]; exact hout⟩
    | bool b =>
      obtain ⟨out, hout⟩ := ih path errors allow
        (fun kv hkv => H kv (List.mem_cons_of_mem _ hkv)) Hkeys
      exact ⟨out, by simp only [check_entries]; exact hout⟩
    | number n =>
      obtain ⟨out, hout⟩ := ih path errors allow
        (fun kv hkv => H kv (List.mem_cons_of_mem _ hkv)) Hkeys
      exact ⟨out, by simp only [check_entries]; exact hout⟩
    | sequence its =>
      obtain ⟨out, hout⟩ := ih path errors allow
        (fun kv hkv => H kv (List.mem_cons_of_mem _ hkv)) Hkeys
      exact ⟨out, by simp only [check_entries]; exact hout⟩
    | mapping es =>
      obtain ⟨out, hout⟩ := ih path errors allow
        (fun kv hkv => H kv (List.mem_cons_of_mem _ hkv)) Hkeys
      exact ⟨out, by simp only [check_entries]; exact hout⟩

/-- The item loop of `validate_list` cannot fail when the item rule is
schema-valid and recursion on each item cannot fail. -/
theorem validate_items_ok (regex_new : RegexNew) (item_rule : SchemaRule) :
    ∀ (items : List Value) (path : String) (errors : List ValidationError) (i : Nat),
      (∀ x ∈ items, ∀ (rule : SchemaRule) (p : String)
        (errs : List ValidationError) (b : Bool),
        validate_schema_rule regex_new rule = .ok () →
        ∃ out, validate_node regex_new x rule p errs b = .ok out) →
      validate_schema_rule regex_new item_rule = .ok () →
      ∃ out, validate_items regex_new items item_rule path errors i = .ok out := by
  intro items
  induction items with
  | nil => intro path errors i _ _; exact ⟨errors, by simp [validate_items]⟩
  | cons x rest ih =>
    intro path errors i H hir
    obtain ⟨out1, hout1⟩ := H x (List.mem_cons_self _ _) item_rule
      (path ++ "[" ++ toString i ++ "]") errors false hir
    obtain ⟨out2, hout2⟩ := ih path out1 (i + 1)
      (fun y hy => H y (List.mem_cons_of_mem _ hy)) hir
    exact ⟨out2, by
      simp only [validate_items]
      rw [hout1]
      exact hout2⟩

/-- The tail of `validate_list` cannot fail under the same hypotheses. -/
theorem validate_list_after_min_ok (regex_new : RegexNew) {rule : SchemaRule}
    (hitems : ∀ ir, rule.items = some ir → validate_schema_rule regex_new ir = .ok ()) :
    ∀ (items : List Value) (path : String) (errors : List ValidationError),
      (∀ x ∈ items, ∀ (r : SchemaRule) (p : String)
        (errs : List ValidationError) (b : Bool),
        validate_schema_rule regex_new r = .ok () →
        ∃ out, validate_node regex_new x r p errs b = .ok out) →
      ∃ out, validate_list_after_min regex_new items rule path errors = .ok out := by
  intro items path errors H
  cases hit : rule.items with
  | none =>
    unfold validate_list_after_min
    rw [hit]
    exact ⟨_, rfl⟩
  | some ir =>
    unfold validate_list_after_min
    rw [hit]
    exact validate_items_ok regex_new ir items path _ 0 H (hitems ir hit)

/-- `validate_list` cannot fail under the same hypotheses. -/
theorem validate_list_ok (regex_new : RegexNew) {rule : SchemaRule}
    (hitems : ∀ ir, rule.items = some ir → validate_schema_rule regex_new ir = .ok ()) :
    ∀ (items : List Value) (path : String) (errors : List ValidationError),
      (∀ x ∈ items, ∀ (r : SchemaRule) (p : String)
        (errs : List ValidationError) (b : Bool),
        validate_schema_rule regex_new r = .ok () →
        ∃ out, validate_node regex_new x r p errs b = .ok out) →
      ∃ out, validate_list regex_new (.sequence items) rule path errors = .ok out := by
  intro items path errors H
  cases hmn : rule.min_length with
  | none =>
    simp only [validate_list, hmn]
    exact validate_list_after_min_ok regex_new hitems items path errors H
  | some m =>
    by_cases hlt : items.length < m
    · by_cases hemp : items.isEmpty ∧ 0 < m
      · exact ⟨errors ++ [⟨path, "List too short",
          "At least " ++ toString m ++ " items",
          toString items.length ++ " items", rule.description, none⟩],
          by simp only [validate_list, hmn, if_pos hlt, if_pos hemp]⟩
      · simp only [validate_list, hmn, if_pos hlt, if_neg hemp]
        exact validate_list_after_min_ok regex_new hitems items path _ H
    · simp only [validate_list, hmn, if_neg hlt]
      exact validate_list_after_min_ok regex_new hitems items path errors H

/-- Core of C7: `validate_node` cannot fail on any value against a
schema-valid rule — the pattern-compilation failure branch of
`validate_string` is unreachable. -/
theorem validate_node_ok (regex_new : RegexNew) :
    ∀ (value : Value) (rule : SchemaRule) (path : String)
      (errors : List ValidationError) (strict : Bool),
      validate_schema_rule regex_new rule = .ok () →
      ∃ out, validate_node regex_new value rule path errors strict = .ok out := by
  have main : ∀ (N : Nat) (value : Value), sizeOf value ≤ N →
      ∀ (rule : SchemaRule) (path : String) (errors : List ValidationError) (strict : Bool),
        validate_schema_rule regex_new rule = .ok () →
        ∃ out, validate_node regex_new value rule path errors strict = .ok out := by
    intro N
    induction N with
    | zero =>
      intro value hv rule path errors strict hok
      exact absurd hv (by cases value <;> simp_arith)
    | succ N ih =>
      intro value hv rule path errors strict hok
      by_cases ht : validate_type value rule.data_type = false
      · exact ⟨errors ++ [⟨path, "Type mismatch", rule.data_type.debugRepr,
          value_type_name value, rule.description, none⟩],
          by rw [validate_node]; simp [ht]⟩
      · have ht' : validate_type value rule.data_type = true := by
          cases hb : validate_type value rule.data_type
          · exact absurd hb ht
          · rfl
        cases hdt : rule.data_type with
        | object =>
          rw [hdt] at ht'
          cases value with
          | null => simp [validate_type] at ht'
          | bool b => simp [validate_type] at ht'
          | number n => simp [validate_type] at ht'
          | str s => simp [validate_type] at ht'
          | sequence its => simp [validate_type] at ht'
          | mapping m =>
            cases hk : rule.keys with
            | none =>
              exact ⟨errors, by
                rw [validate_node]
                simp [ht', hdt, validate_object, hk]⟩
            | some ks =>
              have hkeys := validate_key_rules_ok (schema_ok_object_keys hok hdt hk)
              have H : ∀ kv ∈ m, ∀ (r : SchemaRule) (p : String)
                  (errs : List ValidationError) (b : Bool),
                  validate_schema_rule regex_new r = .ok () →
                  ∃ out, validate_node regex_new kv.2 r p errs b = .ok out := by
                intro kv hkv r p es b hr
                have h1 := List.sizeOf_lt_of_mem hkv
                have h2 : sizeOf kv.2 < sizeOf kv := by
                  obtain ⟨k2, v2⟩ := kv
                  simp_arith
                have h3 : sizeOf (Value.mapping m) = 1 + sizeOf m := by simp
                exact ih kv.2 (by omega) r p es b hr
              obtain ⟨out, hout⟩ := check_entries_ok regex_new ks m path
                (errors ++ required_errors ks m path)
                (if strict then false else rule.allow_unknown_keys) H hkeys
              exact ⟨out, by
                rw [validate_node]
                simpa [ht', hdt, validate_object, hk] using hout⟩
        | list =>
          rw [hdt] at ht'
          cases value with
          | null => simp [validate_type] at ht'
          | bool b => simp [validate_type] at ht'
          | number n => simp [validate_type] at ht'
          | str s => simp [validate_type] at ht'
          | mapping m => simp [validate_type] at ht'
          | sequence items =>
            have hitems : ∀ ir, rule.items = some ir →
                validate_schema_rule regex_new ir = .ok () :=
              fun ir hi => schema_ok_items hok hdt hi
            have H : ∀ x ∈ items, ∀ (r : SchemaRule) (p : String)
                (errs : List ValidationError) (b : Bool),
                validate_schema_rule regex_new r = .ok () →
                ∃ out, validate_node regex_new x r p errs b = .ok out := by
              intro x hx r p es b hr
              have h1 := List.sizeOf_lt_of_mem hx
              have h3 : sizeOf (Value.sequence items) = 1 + sizeOf items := by simp
              exact ih x (by omega) r p es b hr
            obtain ⟨out, hout⟩ := validate_list_ok regex_new hitems items path errors H
            exact ⟨out, by
              rw [validate_node]
              simpa [ht', hdt] using hout⟩
        | string =>
          rw [hdt] at ht'
          obtain ⟨out, hout⟩ := validate_string_ok regex_new value rule path errors
            (fun p hp => schema_ok_pattern hok hdt hp)
          exact ⟨out, by
            rw [validate_node]
            simpa [ht', hdt] using hout⟩
        | integer =>
          rw [hdt] at ht'
          obtain ⟨out, hout⟩ := validate_number_ok value rule path errors
          exact ⟨out, by
            rw [validate_node]
            simpa [ht', hdt] using hout⟩
        | float =>
          rw [hdt] at ht'
          obtain ⟨out, hout⟩ := validate_number_ok value rule path errors
          exact ⟨out, by
            rw [validate_node]
            simpa [ht', hdt] using hout⟩
        | boolean =>
          rw [hdt] at ht'
          exact ⟨errors, by rw [validate_node]; simp [ht', hdt]⟩
        | null =>
          rw [hdt] at ht'
          exact ⟨errors, by rw [validate_node]; simp [ht', hdt]⟩
        | any =>
          rw [hdt] at ht'
          exact ⟨errors, by rw [validate_node]; simp [ht', hdt]⟩
  intro value rule path errors strict hok
  exact main (sizeOf value) value le_rfl rule path errors strict hok

/-- C7: For every schema whose rule tree passes the load-time
`validate_schema_rule` check (as every schema accepted by
`Schema::from_file` does), the recursive walk always completes — the
pattern-compilation failure branch of `validate_string` is unreachable
— and `validate` never surfaces a `Pattern` error on any document. -/
theorem C7_loaded_schema_no_pattern_error (regex_new : RegexNew) (schema : Schema)
    (h : validate_schema_rule regex_new schema.root = .ok ())
    (config : Config) (strict : Bool) :
    (∃ errs, validate_node regex_new config.data schema.root "" [] strict = .ok errs) ∧
    ∀ msg, validate regex_new config schema strict ≠ .error (.Pattern msg) := by
  obtain ⟨errs, herrs⟩ := validate_node_ok regex_new config.data schema.root "" [] strict h
  refine ⟨⟨errs, herrs⟩, ?_⟩
  intro msg hcontra
  unfold validate at hcontra
  rw [herrs] at hcontra
  dsimp only at hcontra
  split at hcontra <;> simp at hcontra

/-- Witness for C7: a compiling pattern rule never yields a `Pattern`
error at validation time. -/
theorem C7_witness :
    (∃ errs, validate_node rnewAll (Value.str "v1") patRule "" [] false = .ok errs) ∧
    ∀ msg, validate rnewAll ⟨Value.str "v1", .yaml, none⟩ ⟨patRule⟩ false ≠
      .error (.Pattern msg) := by
  have h := C7_loaded_schema_no_pattern_error rnewAll ⟨patRule⟩
    (by simp [validate_schema_rule, patRule, rnewAll, check_length_order, compile_pattern_rule]) ⟨Value.str "v1", .yaml, none⟩ false
  simpa using h

end ConfigGuard
